import Mathlib

/-!
Verification of the `loged` log-streaming server (`src/main.go`) against its
natural-language specification.

The Go program is shallowly embedded: pointers to `websocket.Conn` become
opaque numeric identifiers, the per-file `LogStreamer` struct becomes a Lean
structure, and each method's body is translated statement by statement into a
pure function on that state.  File contents are modelled as the list of their
newline-delimited lines, as produced by `bufio.Scanner`.
-/

namespace Loged

/-- A viewer connection.  In the source a viewer is a `*websocket.Conn`;
pointer identity is modelled by an opaque numeric identifier. -/
abbrev Conn := Nat

/-- The `LogStreamer` struct (`main.go` lines 36–40): the per-file hub holding
the slice of connected clients and the monitored file name.  The mutex only
serialises access and has no pure-state content. -/
structure LogStreamer where
  clients  : List Conn
  filename : String
  deriving DecidableEq, Repr

/-! ## AddClient: initial snapshot (`main.go` lines 53–88) -/

/-- The metadata record sent at the end of the initial snapshot:
`fmt.Sprintf("__META__:INITIAL_LOAD:%d:%d", totalLines, shownLines)`
(`main.go` line 86). -/
def metaInitialLoad (totalLines shownLines : Nat) : String :=
  "__META__:INITIAL_LOAD:" ++ toString totalLines ++ ":" ++ toString shownLines

/-- The start index of the snapshot window (`main.go` lines 74–77):
`start := 0; if len(lines) > 200 { start = len(lines) - 200 }`. -/
def snapshotStart (lines : List String) : Nat :=
  if lines.length > 200 then lines.length - 200 else 0

/-- The full message sequence the `AddClient` goroutine writes to a freshly
registered client once the file has been read into `lines`
(`main.go` lines 66–86): the lines from `snapshotStart` to the end, in order,
followed by the `__META__:INITIAL_LOAD` record with
`totalLines = len(lines)` and `shownLines = len(lines) - start`. -/
def snapshotMsgs (lines : List String) : List String :=
  lines.drop (snapshotStart lines) ++
    [metaInitialLoad lines.length (lines.length - snapshotStart lines)]

/-- The state change of `AddClient` (`main.go` lines 53–56):
append the connection to the client slice. -/
def addClient (ls : LogStreamer) (c : Conn) : LogStreamer :=
  { ls with clients := ls.clients ++ [c] }

/-! ## RemoveClient (`main.go` lines 90–100) -/

/-- The removal loop of `RemoveClient` (`main.go` lines 92–97): scan the client
slice for the first element equal to `c`, splice it out, and `break`. -/
def removeFirst : List Conn → Conn → List Conn
  | [], _ => []
  | x :: xs, c => if x = c then xs else x :: removeFirst xs c

/-- Result of `RemoveClient`: the new hub state, plus whether `conn.Close()`
was called. -/
structure RemoveResult where
  streamer   : LogStreamer
  connClosed : Bool
  deriving DecidableEq, Repr

/-- The method `RemoveClient` (`main.go` lines 90–100): remove the first occurrence of
the connection from the client slice (if present), then unconditionally
`conn.Close()`. -/
def removeClient (ls : LogStreamer) (c : Conn) : RemoveResult :=
  { streamer := { ls with clients := removeFirst ls.clients c }
    connClosed := true }

/-! ## Broadcast (`main.go` lines 102–113)

`Broadcast` walks the client slice from the last index down to `0`; each
client gets one `WriteMessage` attempt; on error the client is closed and
spliced out of the slice at its index (safe because only lower indices remain
to be visited).  The success or failure of each send is supplied by a
transport oracle `ok`. -/

/-- Result of one `Broadcast` pass: the surviving client slice, the clients
whose send succeeded (in attempt order), and the clients closed after a
failed send (in attempt order). -/
structure BroadcastResult where
  clients   : List Conn
  delivered : List Conn
  closed    : List Conn
  deriving DecidableEq, Repr

/-- The loop of `Broadcast` (`main.go` lines 104–111):
`for i := len(ls.clients) - 1; i >= 0; i-- { ... }`.  The first argument is
the number of indices still to visit, so `broadcastLoop ok (i+1) l d cl`
processes index `i` of the current slice `l` and recurses; a failed send
erases index `i` (`ls.clients = append(ls.clients[:i], ls.clients[i+1:]...)`). -/
def broadcastLoop (ok : Conn → Bool) : Nat → List Conn → List Conn → List Conn → BroadcastResult
  | 0, l, d, cl => ⟨l, d, cl⟩
  | i + 1, l, d, cl =>
    match l[i]? with
    | none => broadcastLoop ok i l d cl
    | some c =>
      if ok c then broadcastLoop ok i l (d ++ [c]) cl
      else broadcastLoop ok i (l.eraseIdx i) d (cl ++ [c])

/-- The method `Broadcast` (`main.go` lines 102–113): run the loop over the whole client
slice with the per-send outcomes given by the transport oracle `sendOk`.
The Go method has no return value: no error is ever surfaced to the caller. -/
def broadcast (sendOk : Conn → String → Bool) (ls : LogStreamer) (msg : String) :
    LogStreamer × BroadcastResult :=
  let r := broadcastLoop (fun c => sendOk c msg) ls.clients.length ls.clients [] []
  ({ ls with clients := r.clients }, r)

/-! ## The follow loop of `Start` (`main.go` lines 115–130)

`Start` launches a goroutine that opens the file, does `file.Seek(0, 2)` to
the current end, wraps the handle in a `bufio.Scanner`, and runs
`for scanner.Scan() { ls.Broadcast(scanner.Text()) }`.

On a regular file, `os.File.Read` at end-of-file returns `io.EOF` and
`bufio.Scanner.Scan` then returns `false` — it does not block waiting for the
file to grow.  So the loop consumes whatever complete lines sit between the
seek position and end-of-file and then exits for good; lines appended after
the scanner has hit end-of-file are never read.  The model makes the reader's
position explicit: `pending` is the list of complete lines currently between
the reader's offset and end-of-file (empty right after the seek), an `append`
event is a writer adding a line to the file, and a `scan` event is one
`scanner.Scan()` call: it either yields the next pending line (which the loop
body broadcasts) or, with nothing pending, returns `false` and the loop exits
permanently. -/

/-- One event in an interleaved execution of the follow goroutine and the
file's writer. -/
inductive FollowEvent where
  | append (line : String)
  | scan
  deriving DecidableEq, Repr

/-- State of the follow goroutine: unread complete lines, whether the
`for scanner.Scan()` loop has exited, and the lines broadcast so far. -/
structure FollowState where
  pending    : List String
  exited     : Bool
  broadcasts : List String
  deriving DecidableEq, Repr

/-- Transition of the follow goroutine on one event (see the section
comment). -/
def followStep (st : FollowState) : FollowEvent → FollowState
  | .append s => { st with pending := st.pending ++ [s] }
  | .scan =>
    if st.exited then st
    else
      match st.pending with
      | [] => { st with exited := true }
      | l :: rest => { st with pending := rest, broadcasts := st.broadcasts ++ [l] }

/-- Run the follow goroutine from the state right after `file.Seek(0, 2)`:
nothing pending, loop live, nothing broadcast. -/
def followRun (evs : List FollowEvent) : FollowState :=
  evs.foldl followStep ⟨[], false, []⟩

/-! ## handleLoadMore (`main.go` lines 774–831): the pagination service -/

/-- Numeric value of a digit string (most significant first). -/
def digitsToNat (ds : List Char) : Nat :=
  ds.foldl (fun a c => a * 10 + (c.toNat - 48)) 0

/-- Model of `fmt.Sscanf(s, "%d", &x)`: skip leading blanks, read an optional
sign and a run of digits; if there is no digit the scan fails and `x` keeps
its current value `cur`. -/
def parseGoInt (s : String) (cur : Int) : Int :=
  let cs := s.toList.dropWhile (fun c => c == ' ' || c == '\t')
  match cs with
  | '-' :: rest =>
    let ds := rest.takeWhile Char.isDigit
    if ds.isEmpty then cur else -(digitsToNat ds : Int)
  | '+' :: rest =>
    let ds := rest.takeWhile Char.isDigit
    if ds.isEmpty then cur else (digitsToNat ds : Int)
  | _ =>
    let ds := cs.takeWhile Char.isDigit
    if ds.isEmpty then cur else (digitsToNat ds : Int)

/-- The collection loop of `handleLoadMore` (`main.go` lines 817–820):
`for i := start; i < end; i++ { result = append(result, lines[i]) }`.
`lines[i]` is modelled by `getD` with a dummy default; the loop only ever
runs with `0 ≤ i < lines.length`, where the default is irrelevant. -/
def sliceLoop (lines : List String) (i endIdx : Int) : List String :=
  if i < endIdx then lines.getD i.toNat "" :: sliceLoop lines (i + 1) endIdx
  else []
termination_by (endIdx - i).toNat
decreasing_by
  simp_wf
  omega

/-- Wrap of an integer to a signed two's-complement 64-bit value: the
behaviour of Go's `int` arithmetic on overflow (the Go language definition
makes signed overflow wrap around deterministically). -/
def wrap64 (x : Int) : Int := (x + 2 ^ 63) % 2 ^ 64 - 2 ^ 63

/-- The window computation of `handleLoadMore` (`main.go` lines 807–830):
clamp `start` below by `0`, compute `end := start + limit` — a 64-bit `int`
addition, so the sum wraps on overflow — clamp `end` above by the line count,
collect `lines[start:end]`, and return it with the fresh total.  `offset` and
`limit` arrive from `Sscanf` into `int` variables and are therefore already
in 64-bit range; `start` is one of `0` and `offset` with no arithmetic, and
the loop counter stays within `[start, end] ⊆ [0, len(lines)]` once the loop
runs, so the addition of `start + limit` is the only place a wrap can
occur. -/
def readWindow (lines : List String) (offset limit : Int) : List String × Nat :=
  let start : Int := if offset < 0 then 0 else offset
  let sum : Int := wrap64 (start + limit)
  let endIdx : Int :=
    if sum > (lines.length : Int) then (lines.length : Int) else sum
  (sliceLoop lines start endIdx, lines.length)

/-- The `read_window` contract as the specification words it: the slice of the
file's lines from `max(offset, 0)` to `min(max(offset, 0) + limit, total)`,
together with the freshly computed total.  Stated from the spec, to be
compared with `readWindow`, which is translated from the source. -/
def readWindowSpec (lines : List String) (offset limit : Int) : List String × Nat :=
  let s := max offset 0
  ((lines.drop s.toNat).take (min (s + limit) (lines.length : Int) - s).toNat,
   lines.length)

/-- Parameter handling of `handleLoadMore` (`main.go` lines 784–792):
`offset := 0; limit := 100`, each overwritten by an `Sscanf` only when the
corresponding query parameter is a non-empty string. -/
def loadMore (lines : List String) (offsetStr limitStr : String) : List String × Nat :=
  let offset : Int := if offsetStr = "" then 0 else parseGoInt offsetStr 0
  let limit : Int := if limitStr = "" then 100 else parseGoInt limitStr 100
  readWindow lines offset limit

/-! ## Hub construction and registration (`main.go` lines 42–51 and 190–204) -/

/-- Status of a path in the modelled file system: missing, present but not
openable for reading (`os.Stat` succeeds, `os.Open` fails), or readable with
the given lines. -/
inductive FileStat where
  | notFound
  | unreadable
  | readable (lines : List String)
  deriving DecidableEq, Repr

/-- A file system assigns a status to every path. -/
abbrev FileSys := String → FileStat

/-- The check `os.IsNotExist(err)` for the error of `os.Stat(path)`: true exactly when
the path is missing.  A permission failure is not `IsNotExist`, and `os.Stat`
itself succeeds on an existing file that cannot be opened for reading. -/
def statIsNotExist (fs : FileSys) (p : String) : Bool :=
  match fs p with
  | .notFound => true
  | _ => false

/-- The constructor `NewLogStreamer` (`main.go` lines 42–51): fail only when
`os.IsNotExist(os.Stat(path))`; otherwise return a fresh hub with an empty
client slice. -/
def newLogStreamer (fs : FileSys) (p : String) : Except String LogStreamer :=
  if statIsNotExist fs p then
    .error ("stat " ++ p ++ ": no such file or directory")
  else
    .ok { clients := [], filename := p }

/-- Outcome of the hub-resolution-plus-registration section of
`handleWebSocket` (`main.go` lines 190–204) for one request. -/
structure RegisterResult where
  registry    : String → Option LogStreamer
  errorSent   : Bool
  started     : Bool
  viewerAdded : Bool

/-- The registration path of `handleWebSocket` (`main.go` lines 190–204),
run without interleaving: look the path up in `streamers`; if absent,
construct a streamer (on failure write an error message to the connection,
close it, and return with nothing stored), otherwise store it and call
`Start`; finally `AddClient` the connection. -/
def registerViewer (fs : FileSys) (reg : String → Option LogStreamer)
    (p : String) (c : Conn) : RegisterResult :=
  match reg p with
  | some h =>
    { registry := fun q => if q = p then some (addClient h c) else reg q
      errorSent := false
      started := false
      viewerAdded := true }
  | none =>
    match newLogStreamer fs p with
    | .error _ =>
      { registry := reg
        errorSent := true
        started := false
        viewerAdded := false }
    | .ok h =>
      { registry := fun q => if q = p then some (addClient h c) else reg q
        errorSent := false
        started := true
        viewerAdded := true }

/-- A file system in which every path exists but cannot be opened. -/
def unreadableFS : FileSys := fun _ => .unreadable

/-- A file system in which no path exists. -/
def notFoundFS : FileSys := fun _ => .notFound

/-- The registry before any hub has been created. -/
def emptyRegistry : String → Option LogStreamer := fun _ => none

/-! ## The hub-creation race (`main.go` lines 190–202)

`streamers` is a plain package-level `map[string]*LogStreamer` and
`handleWebSocket` runs once per connection in its own goroutine; nothing
synchronises `streamer, exists := streamers[logPath]` with
`streamers[logPath] = streamer`.  Two concurrent first requests for the same
path are modelled as two tasks, each executing the lookup and then (if the
lookup missed) the create-store-start block; the shared state records whether
a hub is stored for the path and how many hubs have been constructed and how
many follow loops started for it over the run.  Each line of Go is one atomic
step; the path is assumed to exist, so `NewLogStreamer` succeeds. -/

/-- Program counter of one `handleWebSocket` task inside the hub-resolution
section: about to read `streamers[logPath]`; about to run the
`NewLogStreamer` / store / `Start()` block after a missed lookup; or past the
section (either because the lookup hit, or after storing and starting). -/
inductive WsPC where
  | atLookup
  | atCreateStoreStart
  | finished
  deriving DecidableEq, Repr

/-- Shared state of the race model: whether `streamers` holds a hub for the
path, how many `LogStreamer` values have been constructed and stored for it,
how many `Start()` calls (follow loops) have been made for it, and the two
tasks' program counters. -/
structure RaceState where
  hubStored    : Bool
  hubsCreated  : Nat
  loopsStarted : Nat
  t0           : WsPC
  t1           : WsPC
  deriving DecidableEq, Repr

/-- One task executes its next statement: the lookup reads `hubStored`; the
create block constructs a hub, stores it (overwriting any concurrent store)
and starts its follow loop. -/
def pcStep (stored : Bool) : WsPC → WsPC × Bool × Nat × Nat
  | .atLookup => (if stored then .finished else .atCreateStoreStart, stored, 0, 0)
  | .atCreateStoreStart => (.finished, true, 1, 1)
  | .finished => (.finished, stored, 0, 0)

/-- Scheduler step: run one statement of task `0` (`tid = false`) or task `1`
(`tid = true`). -/
def raceStep (s : RaceState) (tid : Bool) : RaceState :=
  if tid then
    let r := pcStep s.hubStored s.t1
    { s with t1 := r.1, hubStored := r.2.1,
             hubsCreated := s.hubsCreated + r.2.2.1,
             loopsStarted := s.loopsStarted + r.2.2.2 }
  else
    let r := pcStep s.hubStored s.t0
    { s with t0 := r.1, hubStored := r.2.1,
             hubsCreated := s.hubsCreated + r.2.2.1,
             loopsStarted := s.loopsStarted + r.2.2.2 }

/-- Run a schedule from the initial state: no hub stored, both tasks at the
lookup. -/
def raceRun (sched : List Bool) : RaceState :=
  sched.foldl raceStep ⟨false, 0, 0, .atLookup, .atLookup⟩

/-! ## Reachable hub states

The client slice of a hub evolves only through `AddClient`, `RemoveClient`
and the removals inside `Broadcast`, and `handleWebSocket` calls `AddClient`
exactly once per accepted connection, with a connection value
(`*websocket.Conn` from `upgrader.Upgrade`) never seen before — hence the
freshness side condition on `add`. -/

/-- The client slices a hub can reach from its initial empty slice. -/
inductive HubReachable : List Conn → Prop
  | init : HubReachable []
  | add {s : List Conn} {c : Conn} : HubReachable s → c ∉ s →
      HubReachable (s ++ [c])
  | remove {s : List Conn} (c : Conn) : HubReachable s →
      HubReachable (removeFirst s c)
  | bcast {s : List Conn} (sendOk : Conn → String → Bool) (msg f : String) :
      HubReachable s → HubReachable (broadcast sendOk ⟨s, f⟩ msg).1.clients

/-! ### End of definitions; all theorems follow. -/

/-! # Theorems -/

/-! Basic facts about `removeFirst`. -/

theorem removeFirst_eq_erase (l : List Conn) (c : Conn) :
    removeFirst l c = l.erase c := by
  induction l with
  | nil => rfl
  | cons x xs ih =>
    by_cases h : x = c
    · simp [removeFirst, h, List.erase_cons]
    · simp [removeFirst, h, List.erase_cons, ih]

theorem removeFirst_of_not_mem {l : List Conn} {c : Conn} (h : c ∉ l) :
    removeFirst l c = l := by
  rw [removeFirst_eq_erase]
  exact List.erase_of_not_mem h

theorem not_mem_removeFirst_of_nodup {l : List Conn} {c : Conn}
    (h : l.Nodup) : c ∉ removeFirst l c := by
  rw [removeFirst_eq_erase]
  intro hc
  exact ((h.mem_erase_iff).1 hc).1 rfl

theorem nodup_removeFirst {l : List Conn} {c : Conn} (h : l.Nodup) :
    (removeFirst l c).Nodup := by
  rw [removeFirst_eq_erase]
  exact h.erase c

/-- Characterisation of the `Broadcast` loop: visiting the first `n` indices
keeps exactly the clients whose send succeeds, delivers to exactly those
clients, and closes exactly the failing ones. -/
theorem broadcastLoop_spec (ok : Conn → Bool) :
    ∀ (n : Nat) (l d cl : List Conn), n ≤ l.length →
      broadcastLoop ok n l d cl =
        ⟨(l.take n).filter ok ++ l.drop n,
         d ++ ((l.take n).filter ok).reverse,
         cl ++ ((l.take n).filter (fun c => !ok c)).reverse⟩ := by
  intro n
  induction n with
  | zero => intro l d cl _; simp [broadcastLoop]
  | succ n ih =>
    intro l d cl hle
    have hn : n < l.length := Nat.lt_of_succ_le hle
    have hget : l[n]? = some l[n] := List.getElem?_eq_getElem hn
    have htake : l.take (n + 1) = l.take n ++ [l[n]] := by
      rw [List.take_succ, hget]; rfl
    by_cases hc : ok l[n]
    · rw [broadcastLoop, hget]
      simp only [hc, if_true]
      rw [ih l (d ++ [l[n]]) cl (Nat.le_of_lt hn)]
      have h1 : (l.take (n + 1)).filter ok = (l.take n).filter ok ++ [l[n]] := by
        rw [htake, List.filter_append]; simp [hc]
      have h2 : (l.take (n + 1)).filter (fun c => !ok c) =
          (l.take n).filter (fun c => !ok c) := by
        rw [htake, List.filter_append]; simp [hc]
      have h3 : l.drop n = l[n] :: l.drop (n + 1) := List.drop_eq_getElem_cons hn
      rw [h1, h2, h3]
      simp [List.append_assoc]
    · rw [broadcastLoop, hget]
      simp only [hc, if_false]
      have herase : l.eraseIdx n = l.take n ++ l.drop (n + 1) :=
        List.eraseIdx_eq_take_drop_succ l n
      have hlen : n ≤ (l.eraseIdx n).length := by
        rw [herase, List.length_append, List.length_take, List.length_drop]
        omega
      have hlront : (l.take n).length = n := by
        rw [List.length_take]; omega
      rw [ih (l.eraseIdx n) d (cl ++ [l[n]]) hlen]
      have htaken : (l.eraseIdx n).take n = l.take n := by
        rw [herase, List.take_left' hlront]
      have hdropn : (l.eraseIdx n).drop n = l.drop (n + 1) := by
        rw [herase, List.drop_left' hlront]
      have h1 : (l.take (n + 1)).filter ok = (l.take n).filter ok := by
        rw [htake, List.filter_append]; simp [hc]
      have h2 : (l.take (n + 1)).filter (fun c => !ok c) =
          (l.take n).filter (fun c => !ok c) ++ [l[n]] := by
        rw [htake, List.filter_append]; simp [hc]
      rw [htaken, hdropn, h1, h2]
      simp [List.append_assoc]

/-- Running `Broadcast` over the whole client slice: survivors are exactly the
clients whose send succeeded, in order; deliveries and closes are the
successful and failing clients in attempt order (last index first). -/
theorem broadcast_eq (sendOk : Conn → String → Bool) (ls : LogStreamer) (msg : String) :
    broadcast sendOk ls msg =
      ({ ls with clients := ls.clients.filter (fun c => sendOk c msg) },
       ⟨ls.clients.filter (fun c => sendOk c msg),
        (ls.clients.filter (fun c => sendOk c msg)).reverse,
        (ls.clients.filter (fun c => !sendOk c msg)).reverse⟩) := by
  unfold broadcast
  rw [broadcastLoop_spec (fun c => sendOk c msg) ls.clients.length ls.clients [] []
      (Nat.le_refl _)]
  simp

/-- C2: a new viewer's snapshot for a file of `N` lines consists of all `N`
lines followed by a metadata record reporting `(N, N)` when `N ≤ 200`, and of
the last `200` lines followed by a metadata record reporting `(N, 200)` when
`N > 200`. -/
theorem c2_snapshot_window (lines : List String) :
    (lines.length ≤ 200 →
      snapshotMsgs lines = lines ++ [metaInitialLoad lines.length lines.length]) ∧
    (200 < lines.length →
      snapshotMsgs lines =
        lines.drop (lines.length - 200) ++ [metaInitialLoad lines.length 200]) := by
  constructor
  · intro h
    unfold snapshotMsgs snapshotStart
    rw [if_neg (by omega)]
    simp
  · intro h
    unfold snapshotMsgs snapshotStart
    rw [if_pos (by omega)]
    have h200 : lines.length - (lines.length - 200) = 200 := by omega
    rw [h200]

/-- Witness for `c2_snapshot_window` on the three-line file. -/
theorem c2_witness :
    (["a", "b", "c"] : List String).length ≤ 200 ∧
    snapshotMsgs ["a", "b", "c"] = ["a", "b", "c"] ++ [metaInitialLoad 3 3] :=
  ⟨by decide, (c2_snapshot_window ["a", "b", "c"]).1 (by decide)⟩

/-- C9: when the offset and limit query parameters are absent (empty
strings), `handleLoadMore` computes the same window as an explicit request
with offset `0` and limit `100`. -/
theorem c9_loadMore_defaults (lines : List String) :
    loadMore lines "" "" = readWindow lines 0 100 := rfl

/-- C10: `RemoveClient` closes the connection unconditionally, and when the
connection is not in the client slice the hub state is left entirely
unchanged. -/
theorem c10_removeClient_frame (ls : LogStreamer) (c : Conn) :
    (removeClient ls c).connClosed = true ∧
    (c ∉ ls.clients → (removeClient ls c).streamer = ls) := by
  refine ⟨rfl, fun h => ?_⟩
  simp [removeClient, removeFirst_of_not_mem h]

/-- Witness for `c10_removeClient_frame` on a hub that does not contain the
removed connection. -/
theorem c10_witness :
    (removeClient ⟨[1], "log"⟩ 0).connClosed = true ∧
    0 ∉ ([1] : List Conn) ∧
    (removeClient ⟨[1], "log"⟩ 0).streamer = ⟨[1], "log"⟩ := by
  refine ⟨(c10_removeClient_frame ⟨[1], "log"⟩ 0).1, by decide, ?_⟩
  exact (c10_removeClient_frame ⟨[1], "log"⟩ 0).2 (by decide)

/-- C4 (counterexample evaluation): with two concurrent first-time viewers of
the same never-seen path, the interleaving lookup₀, lookup₁, create₀, create₁
is a legal schedule of the unsynchronised registry code and ends with two
`LogStreamer` values constructed and stored for the path and two follow loops
started — not exactly one of each as claimed. -/
theorem c4_hub_creation_race :
    raceRun [false, true, false, true] =
      { hubStored := true, hubsCreated := 2, loopsStarted := 2,
        t0 := .finished, t1 := .finished } := by decide

/-- C7 (counterexample evaluation): on the file `["a","b","c"]` a new viewer
does receive `a`, `b`, `c` and then the metadata record — whose literal text
is `__META__:INITIAL_LOAD:3:3`, not `META:INITIAL_LOAD:3:3` — but a line `d`
appended after the follow loop has scanned past end-of-file is never
broadcast, so the viewer never receives `d`. -/
theorem c7_scenario :
    snapshotMsgs ["a", "b", "c"] = ["a", "b", "c", "__META__:INITIAL_LOAD:3:3"] ∧
    metaInitialLoad 3 3 ≠ "META:INITIAL_LOAD:3:3" ∧
    (followRun [.scan, .append "d", .scan]).broadcasts = [] ∧
    (followRun [.scan, .append "d", .scan]).exited = true := by
  refine ⟨by decide, by decide, by decide, by decide⟩

/-- Once the `for scanner.Scan()` loop has exited, no later event changes the
broadcast log and the loop stays exited. -/
theorem follow_frozen (evs : List FollowEvent) :
    ∀ (st : FollowState), st.exited = true →
      (evs.foldl followStep st).broadcasts = st.broadcasts ∧
      (evs.foldl followStep st).exited = true := by
  induction evs with
  | nil => intro st h; exact ⟨rfl, h⟩
  | cons e rest ih =>
    intro st h
    cases e with
    | append s =>
      have := ih { st with pending := st.pending ++ [s] } h
      simpa [followStep] using this
    | scan =>
      have hstep : followStep st .scan = st := by
        simp [followStep, h]
      rw [List.foldl_cons, hstep]
      exact ih st h

/-- C1 (counterexample evaluation): the first `scanner.Scan()` after
`file.Seek(0, 2)` finds nothing pending and returns `false`, so the follow
loop exits; all `M` lines appended after that — whatever else the scheduler
does afterwards — are never broadcast, and hence no viewer receives them,
contradicting "the viewer receives exactly M additional lines". -/
theorem c1_follow_loop_starves (ms : List String) (extra : List FollowEvent) :
    (followRun (.scan :: (ms.map .append ++ extra))).broadcasts = [] ∧
    (followRun (.scan :: (ms.map .append ++ extra))).exited = true := by
  unfold followRun
  rw [List.foldl_cons]
  have hstep : followStep ⟨[], false, []⟩ .scan = ⟨[], true, []⟩ := by
    simp [followStep]
  rw [hstep]
  exact follow_frozen (ms.map .append ++ extra) ⟨[], true, []⟩ rfl

/-- C5: in a `Broadcast` pass, a viewer whose send fails is removed from the
client slice and closed within that same pass, and only failing viewers are
removed: every other registered viewer still gets the line delivered.  The
method returns no error, so a failure never reaches the caller. -/
theorem c5_broadcast_failure_viewer_local (sendOk : Conn → String → Bool)
    (ls : LogStreamer) (msg : String) :
    (broadcast sendOk ls msg).1.clients = ls.clients.filter (fun c => sendOk c msg) ∧
    (broadcast sendOk ls msg).1.filename = ls.filename ∧
    (∀ c ∈ ls.clients, sendOk c msg = false →
      c ∉ (broadcast sendOk ls msg).1.clients ∧
      c ∈ (broadcast sendOk ls msg).2.closed ∧
      c ∉ (broadcast sendOk ls msg).2.delivered) ∧
    (∀ c ∈ ls.clients, sendOk c msg = true →
      c ∈ (broadcast sendOk ls msg).1.clients ∧
      c ∈ (broadcast sendOk ls msg).2.delivered) ∧
    (∀ c ∈ (broadcast sendOk ls msg).1.clients,
      c ∈ ls.clients ∧ sendOk c msg = true) := by
  rw [broadcast_eq]
  refine ⟨rfl, rfl, ?_, ?_, ?_⟩
  · intro c hc hfail
    refine ⟨?_, ?_, ?_⟩
    · simp [List.mem_filter, hfail]
    · simp [List.mem_filter, hc, hfail]
    · simp [List.mem_filter, hfail]
  · intro c hc hok
    exact ⟨by simp [List.mem_filter, hc, hok], by simp [List.mem_filter, hc, hok]⟩
  · intro c hc
    simp only [List.mem_filter] at hc
    exact hc

/-- Witness for `c5_broadcast_failure_viewer_local`: two viewers, the send to
viewer `1` fails; viewer `1` is removed and closed, viewer `0` still receives
the line and stays registered. -/
theorem c5_witness :
    (1 : Conn) ∈ ([0, 1] : List Conn) ∧
    (1 ∉ (broadcast (fun c _ => decide (c = 0)) ⟨[0, 1], "f"⟩ "x").1.clients ∧
     1 ∈ (broadcast (fun c _ => decide (c = 0)) ⟨[0, 1], "f"⟩ "x").2.closed) ∧
    (0 ∈ (broadcast (fun c _ => decide (c = 0)) ⟨[0, 1], "f"⟩ "x").1.clients ∧
     0 ∈ (broadcast (fun c _ => decide (c = 0)) ⟨[0, 1], "f"⟩ "x").2.delivered) := by
  have h := c5_broadcast_failure_viewer_local (fun c _ => decide (c = 0)) ⟨[0, 1], "f"⟩ "x"
  refine ⟨by decide, ?_, ?_⟩
  · have := h.2.2.1 1 (by decide) (by decide)
    exact ⟨this.1, this.2.1⟩
  · exact h.2.2.2.1 0 (by decide) (by decide)

/-- C6 (counterexample): a path that exists but cannot be opened passes the
`os.IsNotExist` check, so registering a first viewer for it does NOT fail:
no error is sent, a hub IS stored in the registry, and its follow loop is
started — the claim's required outcome (synchronous error, registry
unchanged) is false at this input. -/
theorem c6_counterexample :
    ¬ ((registerViewer unreadableFS emptyRegistry "p" 0).errorSent = true ∧
       (registerViewer unreadableFS emptyRegistry "p" 0).registry "p" = none) ∧
    (registerViewer unreadableFS emptyRegistry "p" 0).errorSent = false ∧
    (registerViewer unreadableFS emptyRegistry "p" 0).registry "p" =
      some { clients := [0], filename := "p" } ∧
    (registerViewer unreadableFS emptyRegistry "p" 0).started = true ∧
    (registerViewer unreadableFS emptyRegistry "p" 0).viewerAdded = true := by
  refine ⟨?_, rfl, rfl, rfl, rfl⟩
  rintro ⟨h, -⟩
  exact absurd h (by decide)

/-- C6 (amended): for every path that does not exist (`NotFound`),
registering a first viewer fails synchronously — an error is written to the
requesting connection — and the registry is returned unchanged, no follow
loop is started, and no viewer is added. -/
theorem c6_notFound_rejected (fs : FileSys) (reg : String → Option LogStreamer)
    (p : String) (c : Conn) (hfs : fs p = .notFound) (hreg : reg p = none) :
    (registerViewer fs reg p c).errorSent = true ∧
    (registerViewer fs reg p c).registry = reg ∧
    (registerViewer fs reg p c).started = false ∧
    (registerViewer fs reg p c).viewerAdded = false := by
  simp [registerViewer, hreg, newLogStreamer, statIsNotExist, hfs]

/-- Witness for `c6_notFound_rejected` on a missing path and the empty
registry. -/
theorem c6_witness :
    notFoundFS "p" = .notFound ∧ emptyRegistry "p" = none ∧
    ((registerViewer notFoundFS emptyRegistry "p" 0).errorSent = true ∧
     (registerViewer notFoundFS emptyRegistry "p" 0).registry = emptyRegistry ∧
     (registerViewer notFoundFS emptyRegistry "p" 0).started = false ∧
     (registerViewer notFoundFS emptyRegistry "p" 0).viewerAdded = false) :=
  ⟨rfl, rfl, c6_notFound_rejected notFoundFS emptyRegistry "p" 0 rfl rfl⟩

/-- Every reachable client slice of a hub is duplicate-free: connections are
added once each (fresh from `upgrader.Upgrade`), and removal and broadcast
only delete elements. -/
theorem hubReachable_nodup {s : List Conn} (h : HubReachable s) : s.Nodup := by
  induction h with
  | init => exact List.nodup_nil
  | add _ hc ih => simp [List.nodup_append, ih, hc]
  | remove c _ ih => exact nodup_removeFirst ih
  | bcast sendOk msg f _ ih =>
    rw [broadcast_eq]
    exact ih.filter _

/-- C8: on every reachable hub state, `RemoveClient` is idempotent — removing
the same connection twice leaves the hub in the same state as removing it
once. -/
theorem c8_removeClient_idempotent {s : List Conn} (f : String) (c : Conn)
    (h : HubReachable s) :
    (removeClient (removeClient ⟨s, f⟩ c).streamer c).streamer =
      (removeClient ⟨s, f⟩ c).streamer := by
  have hnd : s.Nodup := hubReachable_nodup h
  have hkey : removeFirst (removeFirst s c) c = removeFirst s c :=
    removeFirst_of_not_mem (not_mem_removeFirst_of_nodup hnd)
  simp [removeClient, hkey]

/-- Witness for `c8_removeClient_idempotent` on the reachable one-client
hub state `[5]`. -/
theorem c8_witness :
    HubReachable [5] ∧
    (removeClient (removeClient ⟨[5], "log"⟩ 3).streamer 3).streamer =
      (removeClient ⟨[5], "log"⟩ 3).streamer := by
  have hr : HubReachable [5] := by
    have h := HubReachable.add HubReachable.init
      (by simp : (5 : Conn) ∉ ([] : List Conn))
    simpa using h
  exact ⟨hr, c8_removeClient_idempotent "log" 3 hr⟩

/-- The collection loop gathers the slice `[i, endIdx)` of the line list,
provided the loop only visits valid indices. -/
theorem sliceLoop_eq_fuel :
    ∀ (n : Nat) (lines : List String) (i e : Int),
      (e - i).toNat ≤ n → 0 ≤ i → e ≤ (lines.length : Int) →
      sliceLoop lines i e = (lines.drop i.toNat).take (e - i).toNat := by
  intro n
  induction n with
  | zero =>
    intro lines i e hfuel hi he
    have hlt : ¬ i < e := by omega
    rw [sliceLoop, if_neg hlt]
    have h0 : (e - i).toNat = 0 := by omega
    rw [h0]
    simp
  | succ n ih =>
    intro lines i e hfuel hi he
    by_cases hlt : i < e
    · rw [sliceLoop, if_pos hlt]
      have hidx : i.toNat < lines.length := by omega
      rw [List.getD_eq_getElem _ _ hidx]
      rw [ih lines (i + 1) e (by omega) (by omega) he]
      have hnat : (i + 1).toNat = i.toNat + 1 := by omega
      have hcnt : (e - i).toNat = (e - (i + 1)).toNat + 1 := by omega
      rw [hnat, hcnt, List.drop_eq_getElem_cons hidx]
      rfl
    · rw [sliceLoop, if_neg hlt]
      have h0 : (e - i).toNat = 0 := by omega
      rw [h0]
      simp

/-- Unconditional form of `sliceLoop_eq_fuel` for the bounds `readWindow`
actually uses. -/
theorem sliceLoop_eq (lines : List String) (i e : Int) (hi : 0 ≤ i)
    (he : e ≤ (lines.length : Int)) :
    sliceLoop lines i e = (lines.drop i.toNat).take (e - i).toNat :=
  sliceLoop_eq_fuel (e - i).toNat lines i e (Nat.le_refl _) hi he

/-- The window loop of `handleLoadMore` in closed form: the slice from the
clamped start to the wrapped-then-clamped end, plus the fresh total. -/
theorem readWindow_eq (lines : List String) (offset limit : Int) :
    readWindow lines offset limit =
      ((lines.drop (max offset 0).toNat).take
        (min (wrap64 (max offset 0 + limit)) (lines.length : Int) - max offset 0).toNat,
       lines.length) := by
  simp only [readWindow]
  have hstart : (if offset < 0 then (0 : Int) else offset) = max offset 0 := by
    rcases lt_or_le offset 0 with h | h
    · rw [if_pos h, max_eq_right h.le]
    · rw [if_neg (not_lt.mpr h), max_eq_left h]
  rw [hstart]
  have hend : (if wrap64 (max offset 0 + limit) > (lines.length : Int)
      then (lines.length : Int) else wrap64 (max offset 0 + limit)) =
      min (wrap64 (max offset 0 + limit)) (lines.length : Int) := by
    rcases le_or_lt (wrap64 (max offset 0 + limit)) (lines.length : Int) with h | h
    · rw [if_neg (not_lt.mpr h), min_eq_left h]
    · rw [if_pos h, min_eq_right h.le]
  rw [hend]
  rw [sliceLoop_eq lines _ _ (le_max_right offset 0) (min_le_right _ _)]

/-- A value already in signed 64-bit range is unchanged by the wrap. -/
theorem wrap64_eq_of_range {x : Int} (h1 : -(2 ^ 63) ≤ x) (h2 : x < 2 ^ 63) :
    wrap64 x = x := by
  have h63 : (2 : Int) ^ 63 = 9223372036854775808 := by norm_num
  have h64 : (2 : Int) ^ 64 = 18446744073709551616 := by norm_num
  rw [h63] at h1 h2
  unfold wrap64
  rw [h63, h64]
  rw [Int.emod_eq_of_lt (by omega) (by omega)]
  omega

/-- C3 (counterexample): at the representable 64-bit input `offset = 1`,
`limit = 2^63 - 1` on the file `["a","b","c"]`, the Go addition
`end := start + limit` wraps to `-2^63`, so `handleLoadMore` returns an
empty window — but the claim's formula (the slice from `max(offset,0)` to
`min(max(offset,0)+limit, total)`, computed without overflow) gives the tail
`["b","c"]`.  The claim, quantified over every integer offset and limit, is
false at this input. -/
theorem c3_counterexample :
    (readWindow ["a", "b", "c"] 1 (2 ^ 63 - 1)).1 = [] ∧
    (readWindowSpec ["a", "b", "c"] 1 (2 ^ 63 - 1)).1 = ["b", "c"] ∧
    readWindow ["a", "b", "c"] 1 (2 ^ 63 - 1) ≠
      readWindowSpec ["a", "b", "c"] 1 (2 ^ 63 - 1) := by
  have h := readWindow_eq ["a", "b", "c"] 1 (2 ^ 63 - 1)
  refine ⟨?_, by decide, ?_⟩
  · rw [h]; decide
  · rw [h]; decide

/-- C3 (amended): whenever the 64-bit addition `start + limit` does not
overflow — `limit` is a 64-bit value and `max(offset,0) + limit < 2^63` —
`read_window` returns the slice of the file's lines from `max(offset, 0)` to
`min(max(offset, 0) + limit, total)` together with the freshly computed
total; for `offset ≥ total` it returns an empty window and the current
total, for `offset < 0` it behaves as `offset = 0`, and on the file
`["a","b","c"]` with offset `1`, limit `1` it returns `(["b"], 3)`. -/
theorem c3_readWindow (lines : List String) (offset limit : Int)
    (hlim : -(2 ^ 63) ≤ limit) (hsum : max offset 0 + limit < 2 ^ 63) :
    readWindow lines offset limit = readWindowSpec lines offset limit ∧
    (readWindow lines offset limit).2 = lines.length ∧
    ((lines.length : Int) ≤ offset → (readWindow lines offset limit).1 = []) ∧
    (offset < 0 → readWindow lines offset limit = readWindow lines 0 limit) ∧
    readWindow ["a", "b", "c"] 1 1 = (["b"], 3) := by
  have h0max : (0 : Int) ≤ max offset 0 := le_max_right offset 0
  have hwrap : wrap64 (max offset 0 + limit) = max offset 0 + limit :=
    wrap64_eq_of_range (le_trans hlim (le_add_of_nonneg_left h0max)) hsum
  have hspec : readWindow lines offset limit = readWindowSpec lines offset limit := by
    rw [readWindow_eq, hwrap]
    simp only [readWindowSpec]
  refine ⟨hspec, rfl, ?_, ?_, ?_⟩
  · intro h
    rw [hspec]
    simp only [readWindowSpec]
    have h0 : (0 : Int) ≤ offset := le_trans (by exact_mod_cast Nat.zero_le _) h
    have hmax : max offset 0 = offset := max_eq_left h0
    rw [hmax]
    rw [List.drop_eq_nil_iff.mpr (by omega)]
    simp
  · intro h
    simp only [readWindow]
    rw [if_pos h, if_neg (by omega : ¬ (0 : Int) < 0)]
  · rw [readWindow_eq]
    decide

/-- Witness for `c3_readWindow`: the empty-window case at `offset = 5` past
the end of a three-line file, the negative-offset case at `offset = -1`, and
the concrete scenario, all with in-range limits. -/
theorem c3_witness :
    (-(2 ^ 63) ≤ (2 : Int) ∧ max (5 : Int) 0 + 2 < 2 ^ 63 ∧
      ((["a", "b", "c"] : List String).length : Int) ≤ 5 ∧ (-1 : Int) < 0) ∧
    (readWindow ["a", "b", "c"] 5 2).1 = [] ∧
    readWindow ["a", "b", "c"] (-1) 2 = readWindow ["a", "b", "c"] 0 2 ∧
    readWindow ["a", "b", "c"] 1 1 = (["b"], 3) := by
  refine ⟨⟨by decide, by decide, by decide, by decide⟩, ?_, ?_, ?_⟩
  · exact (c3_readWindow ["a", "b", "c"] 5 2 (by decide) (by decide)).2.2.1 (by decide)
  · exact (c3_readWindow ["a", "b", "c"] (-1) 2 (by decide) (by decide)).2.2.2.1 (by decide)
  · exact (c3_readWindow ["a", "b", "c"] 1 1 (by decide) (by decide)).2.2.2.2

end Loged
